import Mathlib

/-!
Shallow embedding of the dioxus-motion animation engine core (src/src/lib.rs).

The Rust source is generic over a trait `Animatable` (zero / add / sub / scale /
interpolate / magnitude / epsilon); we embed the trait as an explicit operations
bundle `Animatable T` and pass it to every operation.  The machine scalar type
`f32` is modelled by `ℚ` (exact arithmetic; floating-point rounding is outside
the model), `Duration` by a rational number of seconds, `u8` arithmetic by `Nat`
with explicit `% 256` where the source casts, and the boxed `on_complete`
callbacks by a presence flag plus ghost invocation counters (`fired`,
`restarts`, `seqFired`) that record the observable effects `update` produces.
-/

namespace DioxusMotion

/-- Modelled from the spec: the `Animatable` trait of the repository's
`animations::utils` module is not under `src/`; the spec (section 3,
AnimatableValue) lists its operations: zero construction, addition,
subtraction, scaling by a scalar, linear interpolation, a magnitude used for
convergence tests, and a fixed epsilon threshold.  We bundle them as data. -/
structure Animatable (T : Type) where
  zero : T
  add : T → T → T
  sub : T → T → T
  scale : T → ℚ → T
  interpolate : T → T → ℚ → T
  magnitude : T → ℚ
  epsilon : ℚ

/-- Modelled from the spec: the scalar instance of the value contract
(`f32` in the source, not under `src/`).  Interpolation is the affine lerp
`a + (b - a) * t`, magnitude is the absolute value; the spec fixes no concrete
epsilon, we use `1/1000`. -/
def ratAnimatable : Animatable ℚ where
  zero := 0
  add := fun a b => a + b
  sub := fun a b => a - b
  scale := fun a k => a * k
  interpolate := fun a b t => a + (b - a) * t
  magnitude := fun a => |a|
  epsilon := 1 / 1000

/-- Modelled from the spec: loop policy `None | Infinite | Times(n)`
(`animations::utils::LoopMode`, not under `src/`).  The `Times` payload is a
`u8` in the source; the state machine never increments `current_loop` past the
count, so plain `Nat` with the side condition `n ≤ 255` is faithful. -/
inductive LoopMode where
  | none : LoopMode
  | infinite : LoopMode
  | times (count : Nat) : LoopMode
deriving DecidableEq, Repr

/-- Modelled from the spec: spring parameter set (stiffness, damping, mass);
`animations::spring::Spring` is not under `src/`.  The update path of
`src/src/lib.rs` reads exactly these three fields. -/
structure Spring where
  stiffness : ℚ
  damping : ℚ
  mass : ℚ
deriving DecidableEq, Repr

/-- Modelled from the spec: tween parameter set; `animations::tween::Tween` is
not under `src/`.  The source calls `(tween.easing)(progress, 0.0, 1.0, 1.0)`,
an easing in Penner form evaluated at `b = 0, c = 1, d = 1`; we model that
specialisation directly as a function of `progress` (the linear easing is then
the identity). -/
structure Tween where
  duration : ℚ
  easing : ℚ → ℚ

/-- Modelled from the spec: animation mode selector (`AnimationMode`, not under
`src/`): spring physics or tween. -/
inductive AnimationMode where
  | spring (s : Spring) : AnimationMode
  | tween (t : Tween) : AnimationMode

/-- Modelled from the spec: `AnimationConfig` (not under `src/`): mode,
optional loop policy (the source reads it with `unwrap_or(LoopMode::None)`),
start delay, optional completion callback.  The callback is modelled by a
presence flag; its invocations are counted by the ghost field
`AnimationState.fired`. -/
structure AnimationConfig where
  mode : AnimationMode
  loop_mode : Option LoopMode
  delay : ℚ
  on_complete : Bool

/-- Modelled from the spec: a default configuration (the source's
`AnimationConfig::default()` lives outside `src/`).  A freshly created state is
not running, so no claim depends on the default's content. -/
def AnimationConfig.default : AnimationConfig where
  mode := AnimationMode.spring { stiffness := 100, damping := 10, mass := 1 }
  loop_mode := Option.none
  delay := 0
  on_complete := false

/-- Internal state for an animation (`AnimationState<T>` in `src/src/lib.rs`).
`fired` and `restarts` are ghost counters: `fired` counts invocations of
`config.on_complete`, `restarts` counts the loop-policy restarts that set
`current := initial`. -/
structure AnimationState (T : Type) where
  current : T
  target : T
  initial : T
  velocity : T
  config : AnimationConfig
  running : Bool
  elapsed : ℚ
  delay_elapsed : ℚ
  current_loop : Nat
  fired : Nat
  restarts : Nat

/-- `AnimationState::new` in `src/src/lib.rs`. -/
def AnimationState.new (ops : Animatable T) (x : T) : AnimationState T where
  current := x
  target := x
  initial := x
  velocity := ops.zero
  config := AnimationConfig.default
  running := false
  elapsed := 0
  delay_elapsed := 0
  current_loop := 0
  fired := 0
  restarts := 0

/-- `AnimationState::animate_to` in `src/src/lib.rs`. -/
def AnimationState.animate_to (ops : Animatable T) (s : AnimationState T)
    (target : T) (config : AnimationConfig) : AnimationState T :=
  { s with
    initial := s.current
    target := target
    config := config
    running := true
    elapsed := 0
    delay_elapsed := 0
    velocity := ops.zero
    current_loop := 0 }

/-- `AnimationState::stop` in `src/src/lib.rs`. -/
def AnimationState.stop (ops : Animatable T) (s : AnimationState T) : AnimationState T :=
  { s with running := false, current_loop := 0, velocity := ops.zero }

/-- `AnimationState::reset` in `src/src/lib.rs`. -/
def AnimationState.reset (ops : Animatable T) (s : AnimationState T) : AnimationState T :=
  { s with running := false, velocity := ops.zero, elapsed := 0, current := s.initial }

/-- `AnimationState::get_value` in `src/src/lib.rs`. -/
def AnimationState.get_value (s : AnimationState T) : T := s.current

/-- `AnimationState::is_running` in `src/src/lib.rs`. -/
def AnimationState.is_running (s : AnimationState T) : Bool := s.running

/-- The callback invocation `if let Some(ref f) = self.config.on_complete
{ guard(); }` at the end of `handle_completion`: the callback is called through
a shared reference, never taken, so it stays in the config afterwards.  The
ghost counter `fired` records the call. -/
def AnimationState.fireOnComplete (s : AnimationState T) : AnimationState T :=
  { s with fired := s.fired + (if s.config.on_complete then 1 else 0) }

/-- `AnimationState::handle_completion` in `src/src/lib.rs`: consults the loop
policy (`loop_mode.unwrap_or(LoopMode::None)`), restarts or stops, and fires
`on_complete` exactly when it decides not to continue. -/
def AnimationState.handle_completion (ops : Animatable T) (s : AnimationState T) :
    AnimationState T × Bool :=
  match s.config.loop_mode.getD LoopMode.none with
  | LoopMode.none =>
      (AnimationState.fireOnComplete { s with running := false }, false)
  | LoopMode.infinite =>
      ({ s with current := s.initial, elapsed := 0, velocity := ops.zero,
                restarts := s.restarts + 1 }, true)
  | LoopMode.times count =>
      let cl := s.current_loop + 1
      if count ≤ cl then
        (AnimationState.fireOnComplete
          (AnimationState.stop ops { s with current_loop := cl }), false)
      else
        ({ s with current_loop := cl, current := s.initial, elapsed := 0,
                  velocity := ops.zero, restarts := s.restarts + 1 }, true)

/-- The spring sub-step loop of `AnimationState::update`: while `remaining_dt
> 0`, take `step = min remaining (1/240)`, apply `velocity += a·step;
current += velocity·step`.  The acceleration `a` is the one computed before
the loop and is constant across sub-steps.  `fuel` bounds the iteration count;
the entry point `springLoop` supplies `⌈240·remaining⌉`, which is exactly the
number of iterations the condition `remaining > 0` admits. -/
def springLoopAux (ops : Animatable T) (acceleration : T) :
    Nat → ℚ → T → T → T × T
  | 0, _, v, c => (v, c)
  | fuel + 1, remaining, v, c =>
      if 0 < remaining then
        let step := min remaining (1 / 240)
        let v' := ops.add v (ops.scale acceleration step)
        let c' := ops.add c (ops.scale v' step)
        springLoopAux ops acceleration fuel (remaining - step) v' c'
      else (v, c)

/-- Entry point of the spring sub-step loop (fixed timestep `1/240`). -/
def springLoop (ops : Animatable T) (acceleration : T) (dt : ℚ) (v c : T) : T × T :=
  springLoopAux ops acceleration (⌈(240 : ℚ) * dt⌉.toNat) dt v c

/-- `AnimationState::update` in `src/src/lib.rs`: early-out when not running,
clamp `dt` to `1/30`, then advance the configured mode and apply the loop
policy on completion. -/
def AnimationState.update (ops : Animatable T) (s : AnimationState T) (dt : ℚ) :
    AnimationState T × Bool :=
  if s.running = false then (s, false)
  else
    let dt := min dt (1 / 30)
    match s.config.mode with
    | AnimationMode.spring spring =>
        let force := ops.scale (ops.sub s.target s.current) spring.stiffness
        let damping := ops.scale s.velocity (-spring.damping)
        let acceleration := ops.scale (ops.add force damping) (1 / spring.mass)
        let vc := springLoop ops acceleration dt s.velocity s.current
        let s' := { s with velocity := vc.1, current := vc.2 }
        if ops.magnitude s'.velocity < ops.epsilon * (1 / 2) ∧
            ops.magnitude (ops.sub s'.target s'.current) < ops.epsilon then
          AnimationState.handle_completion ops { s' with current := s'.target }
        else (s', true)
    | AnimationMode.tween tween =>
        let s' := { s with elapsed := s.elapsed + dt }
        let progress := min (s'.elapsed / tween.duration) 1
        if 1 ≤ progress then
          AnimationState.handle_completion ops { s' with current := s'.target }
        else
          let eased := tween.easing progress
          ({ s' with current := ops.interpolate s'.initial s'.target eased }, true)

/-- `AnimationSignal::delay` in `src/src/lib.rs` (the `Signal` wrapper is
collapsed away): sets `config.delay` on the stored state. -/
def AnimationState.setConfigDelay (s : AnimationState T) (d : ℚ) : AnimationState T :=
  { s with config := { s.config with delay := d } }

/-- `AnimationStep<T>` in `src/src/lib.rs`: one element of a sequence. -/
structure AnimationStep (T : Type) where
  target : T
  config : AnimationConfig

/-- `AnimationSequence<T>` in `src/src/lib.rs`.  `current_step` is a `u8` in
the source; it is stored as `Nat` and the `u8` casts of `MotionState::update`
are made explicit there.  The sequence-level `on_complete` callback (taken
with `Option::take`, hence consumed on firing) is modelled by a presence flag;
its invocations are counted by the ghost field `MotionState.seqFired`. -/
structure AnimationSequence (T : Type) where
  steps : List (AnimationStep T)
  current_step : Nat
  on_complete : Bool

/-- `AnimationSequence::then` in `src/src/lib.rs`: append one step. -/
def AnimationSequence.then (seq : AnimationSequence T) (target : T)
    (config : AnimationConfig) : AnimationSequence T :=
  { seq with steps := seq.steps ++ [{ target := target, config := config }] }

/-- `SequenceState<T>` in `src/src/lib.rs` (the `_current_value` field is
kept as `currentValue`). -/
structure SequenceState (T : Type) where
  sequence : AnimationSequence T
  currentValue : T

/-- `MotionState<T>` in `src/src/lib.rs` (the reactive `Signal` cells are
collapsed to plain fields).  `seqFired` is a ghost counter of sequence-level
`on_complete` invocations. -/
structure MotionState (T : Type) where
  base : AnimationState T
  sequence : Option (SequenceState T)
  seqFired : Nat

/-- `MotionState::new` in `src/src/lib.rs`. -/
def MotionState.new (ops : Animatable T) (x : T) : MotionState T where
  base := AnimationState.new ops x
  sequence := Option.none
  seqFired := 0

/-- `MotionState::animate_to` in `src/src/lib.rs`: cancels any installed
sequence, then starts the bare animation on the base state machine. -/
def MotionState.animate_to (ops : Animatable T) (m : MotionState T)
    (target : T) (config : AnimationConfig) : MotionState T :=
  { m with
    sequence := Option.none
    base := AnimationState.animate_to ops m.base target config }

/-- `MotionState::animate_sequence` in `src/src/lib.rs`: empty sequences
return without touching anything (`steps.is_empty()` guard); otherwise start
step 0 on the base machine and install the sequence (the stored
`_current_value` is `base.get_value()` read after that `animate_to`). -/
def MotionState.animate_sequence (ops : Animatable T) (m : MotionState T)
    (seq : AnimationSequence T) : MotionState T :=
  match seq.steps with
  | [] => m
  | first :: _ =>
      let base' := AnimationState.animate_to ops m.base first.target first.config
      { m with
        base := base'
        sequence := Option.some { sequence := seq, currentValue := base'.get_value } }

/-- `MotionState::update` in `src/src/lib.rs`.  With a sequence installed and
the base machine idle, the source compares `current_step` (a `u8`) against
`total_steps as u8 - 1`; the cast truncates `steps.len()` modulo 256 and the
subtraction wraps, written out explicitly as `(total % 256 + 255) % 256`.
`Ordering::Less` advances exactly one step, `Ordering::Equal` fires the
sequence callback (taking it), stops the base machine and marks the sequence
for clearing, `Ordering::Greater` does nothing.  In every case the base
machine is then advanced by `base.update(dt)` and the results are or-ed. -/
def MotionState.update (ops : Animatable T) (m : MotionState T) (dt : ℚ) :
    MotionState T × Bool :=
  let step1 : MotionState T × Bool × Bool :=
    match m.sequence with
    | Option.none => (m, false, false)
    | Option.some ss =>
        if m.base.running = false then
          let cs := ss.sequence.current_step
          let total := ss.sequence.steps.length
          let last := (total % 256 + 255) % 256
          if cs < last then
            match ss.sequence.steps.get? (cs + 1) with
            | Option.some step =>
                let base' := AnimationState.animate_to ops m.base step.target step.config
                let ss' := { ss with sequence := { ss.sequence with current_step := cs + 1 } }
                ({ m with base := base', sequence := Option.some ss' }, true, false)
            | Option.none =>
                -- unreachable: `cs + 1 ≤ last ≤ steps.length - 1`, so the index
                -- is in bounds; the source would panic here
                (m, false, false)
          else if cs = last then
            let fire := if ss.sequence.on_complete then 1 else 0
            let ss' := { ss with sequence := { ss.sequence with on_complete := false } }
            ({ m with base := AnimationState.stop ops m.base,
                      sequence := Option.some ss',
                      seqFired := m.seqFired + fire }, false, true)
          else (m, false, false)
        else (m, true, false)
  let m1 := step1.1
  let still := step1.2.1
  let m2 := if step1.2.2 then { m1 with sequence := Option.none } else m1
  let br := AnimationState.update ops m2.base dt
  ({ m2 with base := br.1 }, still || br.2)

/-- `MotionState::get_value` in `src/src/lib.rs`. -/
def MotionState.get_value (m : MotionState T) : T := m.base.get_value

/-- `MotionState::is_running` in `src/src/lib.rs`. -/
def MotionState.is_running (m : MotionState T) : Bool :=
  m.base.is_running || m.sequence.isSome

/-- `MotionState::reset` in `src/src/lib.rs`. -/
def MotionState.reset (ops : Animatable T) (m : MotionState T) : MotionState T :=
  { m with sequence := Option.none, base := AnimationState.reset ops m.base }

/-- `MotionState::stop` in `src/src/lib.rs`. -/
def MotionState.stop (ops : Animatable T) (m : MotionState T) : MotionState T :=
  { m with sequence := Option.none, base := AnimationState.stop ops m.base }

/-- `MotionState::delay` in `src/src/lib.rs`: delegates to the base signal's
`delay`, which sets `config.delay`. -/
def MotionState.delay (m : MotionState T) (d : ℚ) : MotionState T :=
  { m with base := m.base.setConfigDelay d }

/-- A linear tween configuration of the given duration, no loop, no delay. -/
def tweenLinear (d : ℚ) : AnimationConfig where
  mode := AnimationMode.tween { duration := d, easing := id }
  loop_mode := Option.none
  delay := 0
  on_complete := false

/-! Concrete scenarios used to settle the claims.  The scalar driver is the
`ratAnimatable` instance over `ℚ`. -/

/-- The spec's concrete scenario: a scalar driver initialised at `0`, sent to
`100` by a linear tween of duration one second. -/
def c1Start : AnimationState ℚ :=
  AnimationState.animate_to ratAnimatable (AnimationState.new ratAnimatable 0) 100 (tweenLinear 1)

/-- A running tween animation whose config carries a pending one-second start
delay (`delay_elapsed = 0 < 1 = config.delay`). -/
def c2Start : AnimationState ℚ :=
  AnimationState.animate_to ratAnimatable (AnimationState.new ratAnimatable 0) 100
    { mode := AnimationMode.tween { duration := 1, easing := id }
      loop_mode := Option.none
      delay := 1
      on_complete := false }

/-- A spring run that reaches its convergence test with a small nonzero
velocity: target `1/2000`, stiffness `1`, no damping, mass `1`. -/
def c3Start : AnimationState ℚ :=
  AnimationState.animate_to ratAnimatable (AnimationState.new ratAnimatable 0) (1/2000)
    { mode := AnimationMode.spring { stiffness := 1, damping := 0, mass := 1 }
      loop_mode := Option.none
      delay := 0
      on_complete := false }

/-- Modelled from the claim's words (for the refinement comparison of C4): the
spring sub-step iteration with the acceleration `a = F/mass` re-evaluated from
the state at each sub-step, `F = stiffness·(target − current) −
damping·velocity`, sub-step `1/240`, semi-implicit Euler. -/
def springStepRecomputed (ops : Animatable T) (sp : Spring) (target : T) :
    Nat → T × T → T × T
  | 0, vc => vc
  | k + 1, vc =>
      let force := ops.scale (ops.sub target vc.2) sp.stiffness
      let damping := ops.scale vc.1 (-sp.damping)
      let a := ops.scale (ops.add force damping) (1 / sp.mass)
      let v' := ops.add vc.1 (ops.scale a (1/240))
      let c' := ops.add vc.2 (ops.scale v' (1/240))
      springStepRecomputed ops sp target k (v', c')

/-- A spring run whose caller-supplied `dt` spans two sub-steps. -/
def c4Start : AnimationState ℚ :=
  AnimationState.animate_to ratAnimatable (AnimationState.new ratAnimatable 0) 1
    { mode := AnimationMode.spring { stiffness := 100, damping := 10, mass := 1 }
      loop_mode := Option.none
      delay := 0
      on_complete := false }

/-- A sequence of 257 steps, step `i` targeting `i`, each an instantly
completing linear tween; its length overflows the `u8` cast of
`MotionState::update` (`257 as u8 = 1`). -/
def seq257 : AnimationSequence ℚ where
  steps := (List.range 257).map (fun i => { target := (i : ℚ), config := tweenLinear (1/240) })
  current_step := 0
  on_complete := true

/-- The driver after submitting `seq257` (step 0 started). -/
def c6Start : MotionState ℚ :=
  MotionState.animate_sequence ratAnimatable (MotionState.new ratAnimatable 0) seq257

/-- A configuration holding a completion callback, used twice in a row. -/
def c8Config : AnimationConfig where
  mode := AnimationMode.tween { duration := 1/240, easing := id }
  loop_mode := Option.none
  delay := 0
  on_complete := true

/-- Two back-to-back animations run with the single callback value stored in
`c8Config`; each `update (1/30)` completes its tween. -/
def c8Run : AnimationState ℚ :=
  (AnimationState.update ratAnimatable
    (AnimationState.animate_to ratAnimatable
      (AnimationState.update ratAnimatable
        (AnimationState.animate_to ratAnimatable (AnimationState.new ratAnimatable 0)
          1 c8Config) (1/30)).1
      2 c8Config) (1/30)).1

/-- Iterated application of `handle_completion` (the state after `m`
completions of the underlying motion). -/
def completionIter (ops : Animatable T) (s : AnimationState T) (m : Nat) : AnimationState T :=
  (fun s => (AnimationState.handle_completion ops s).1)^[m] s

/-- Semi-implicit Euler iteration with a constant acceleration and the fixed
sub-step `1/240`: the shape of the code's spring sub-step loop once the number
of sub-steps is known. -/
def eulerConstAccel (ops : Animatable T) (a : T) : Nat → T × T → T × T
  | 0, vc => vc
  | k + 1, vc =>
      let v' := ops.add vc.1 (ops.scale a (1/240))
      let c' := ops.add vc.2 (ops.scale v' (1/240))
      eulerConstAccel ops a k (v', c')

/-- The code's spring step for `k` sub-steps: the acceleration is computed
once, from the pre-call state, and held constant across all sub-steps. -/
def springCodeStep (ops : Animatable T) (sp : Spring) (target v c : T) (k : Nat) : T × T :=
  eulerConstAccel ops
    (ops.scale (ops.add (ops.scale (ops.sub target c) sp.stiffness)
      (ops.scale v (-sp.damping))) (1 / sp.mass)) k (v, c)

/-- States reachable from a fresh `AnimationState` by the four mutating
operations the claim C3 quantifies over (`animate_to`, `update`, `stop`,
`reset`). -/
inductive Reachable (ops : Animatable T) : AnimationState T → Prop where
  | new (x : T) : Reachable ops (AnimationState.new ops x)
  | animTo {s : AnimationState T} (target : T) (config : AnimationConfig) :
      Reachable ops s → Reachable ops (AnimationState.animate_to ops s target config)
  | upd {s : AnimationState T} (dt : ℚ) :
      Reachable ops s → Reachable ops (AnimationState.update ops s dt).1
  | stopOp {s : AnimationState T} :
      Reachable ops s → Reachable ops (AnimationState.stop ops s)
  | resetOp {s : AnimationState T} :
      Reachable ops s → Reachable ops (AnimationState.reset ops s)

/-- The velocity invariant the code actually maintains: when not running the
velocity is either exactly zero or a spring residual below `epsilon/2`, and a
running tween always has zero velocity. -/
def VelInv (ops : Animatable T) (s : AnimationState T) : Prop :=
  (s.running = false →
    s.velocity = ops.zero ∨ ops.magnitude s.velocity < ops.epsilon * (1/2)) ∧
  (∀ tw, s.config.mode = AnimationMode.tween tw → s.running = true →
    s.velocity = ops.zero)

/-- A driver with an idle base machine and an installed two-step sequence
positioned at step 0. -/
def c6TwoStepIdle : MotionState ℚ where
  base := AnimationState.new ratAnimatable 0
  sequence := Option.some
    { sequence :=
        { steps := [{ target := 10, config := tweenLinear 1 },
                    { target := 20, config := tweenLinear 1 }]
          current_step := 0
          on_complete := false }
      currentValue := 0 }
  seqFired := 0

/-! Theorems.  Each claim of the specification review is settled by the
theorems below; helper lemmas precede the claim theorems that use them. -/

/-- Structural helper: `handle_completion` never touches `target`, `initial`,
`config` or `delay_elapsed`. -/
theorem handle_completion_preserves (ops : Animatable T) (s : AnimationState T) :
    (AnimationState.handle_completion ops s).1.target = s.target ∧
    (AnimationState.handle_completion ops s).1.initial = s.initial ∧
    (AnimationState.handle_completion ops s).1.config = s.config ∧
    (AnimationState.handle_completion ops s).1.delay_elapsed = s.delay_elapsed := by
  rcases hl : s.config.loop_mode.getD LoopMode.none with _ | _ | count <;>
    simp [AnimationState.handle_completion, hl, AnimationState.fireOnComplete,
      AnimationState.stop]
  by_cases h : count ≤ s.current_loop + 1 <;> simp [h]

/-- Claim C10: every call to `AnimationState::update(dt)`, for any `dt` and
any starting state, leaves the fields `target`, `initial` and `config`
unchanged (and, with them, `delay_elapsed`); only `current`, `velocity`,
`elapsed`, `running` and `current_loop` are ever mutated. -/
theorem C10_update_preserves_target_initial_config (ops : Animatable T)
    (s : AnimationState T) (dt : ℚ) :
    (AnimationState.update ops s dt).1.target = s.target ∧
    (AnimationState.update ops s dt).1.initial = s.initial ∧
    (AnimationState.update ops s dt).1.config = s.config ∧
    (AnimationState.update ops s dt).1.delay_elapsed = s.delay_elapsed := by
  unfold AnimationState.update
  split
  · exact ⟨rfl, rfl, rfl, rfl⟩
  · split <;> dsimp only <;> split
    · exact handle_completion_preserves ops _
    · exact ⟨rfl, rfl, rfl, rfl⟩
    · exact handle_completion_preserves ops _
    · exact ⟨rfl, rfl, rfl, rfl⟩

/-- Claim C9: submitting an empty sequence via `animate_sequence` leaves the
entire Driver state unchanged (literally the identity on `MotionState`). -/
theorem C9_empty_sequence_noop (ops : Animatable T) (m : MotionState T)
    (cs : Nat) (oc : Bool) :
    MotionState.animate_sequence ops m
      { steps := [], current_step := cs, on_complete := oc } = m := rfl

/-- Claim C7: `animate_to(target, config)` on the Driver snapshots
`initial := current`, installs the target and config, sets `running`, resets
`elapsed`, `delay_elapsed`, `velocity` and `current_loop`, and clears any
installed sequence. -/
theorem C7_animate_to_resets (ops : Animatable T) (m : MotionState T)
    (target : T) (config : AnimationConfig) :
    (MotionState.animate_to ops m target config).sequence = Option.none ∧
    (MotionState.animate_to ops m target config).base.initial = m.base.current ∧
    (MotionState.animate_to ops m target config).base.target = target ∧
    (MotionState.animate_to ops m target config).base.config = config ∧
    (MotionState.animate_to ops m target config).base.running = true ∧
    (MotionState.animate_to ops m target config).base.elapsed = 0 ∧
    (MotionState.animate_to ops m target config).base.delay_elapsed = 0 ∧
    (MotionState.animate_to ops m target config).base.velocity = ops.zero ∧
    (MotionState.animate_to ops m target config).base.current_loop = 0 :=
  ⟨rfl, rfl, rfl, rfl, rfl, rfl, rfl, rfl, rfl⟩

/-- Claim C1, counterexample: `update` clamps `dt` to `1/30` s, so two
`update(0.5)` calls advance the one-second tween by only `1/15` s: the value is
`20/3`, not `100`, and the animation is still running. -/
theorem C1_counterexample :
    (AnimationState.update ratAnimatable
      (AnimationState.update ratAnimatable c1Start (1/2)).1 (1/2)).1.current = 20/3 ∧
    (AnimationState.update ratAnimatable
      (AnimationState.update ratAnimatable c1Start (1/2)).1 (1/2)).1.running = true ∧
    ¬ ((20 : ℚ)/3 = 100) :=
  ⟨by with_unfolding_all rfl, by with_unfolding_all rfl, by norm_num⟩

set_option maxRecDepth 40000 in
/-- Claim C1, amended: since each `update` call consumes at most `1/30` s of
the caller-supplied `dt`, thirty `update(0.5)` calls are needed; after them
`get_value() == 100` and `is_running() == false`, and a further `update`
returns `false` and leaves the value at `100`. -/
theorem C1_amended :
    ((fun s => (AnimationState.update ratAnimatable s (1/2)).1)^[30] c1Start).current = 100 ∧
    ((fun s => (AnimationState.update ratAnimatable s (1/2)).1)^[30] c1Start).running = false ∧
    (AnimationState.update ratAnimatable
      ((fun s => (AnimationState.update ratAnimatable s (1/2)).1)^[30] c1Start) (1/2)).2 = false ∧
    (AnimationState.update ratAnimatable
      ((fun s => (AnimationState.update ratAnimatable s (1/2)).1)^[30] c1Start) (1/2)).1.current
      = 100 :=
  ⟨by with_unfolding_all rfl, by with_unfolding_all rfl,
   by with_unfolding_all rfl, by with_unfolding_all rfl⟩

/-- Claim C2: behaviour of the code at the failing input.  With
`config.delay = 1` and `delay_elapsed = 0`, `update (1/60)` does not consume
`dt` into `delay_elapsed` (it stays `0`) and advances the tween model anyway
(the value moves from `0` to `5/3`): `AnimationState::update` never reads
`config.delay` or `delay_elapsed`. -/
theorem C2_delay_ignored :
    c2Start.config.delay = 1 ∧
    c2Start.delay_elapsed = 0 ∧
    c2Start.current = 0 ∧
    (AnimationState.update ratAnimatable c2Start (1/60)).1.delay_elapsed = 0 ∧
    (AnimationState.update ratAnimatable c2Start (1/60)).1.current = 5/3 ∧
    (AnimationState.update ratAnimatable c2Start (1/60)).2 = true :=
  ⟨by with_unfolding_all rfl, by with_unfolding_all rfl, by with_unfolding_all rfl,
   by with_unfolding_all rfl, by with_unfolding_all rfl, by with_unfolding_all rfl⟩

/-- Claim C3, counterexample: one `update (1/240)` call completes the spring
(`LoopMode::None` path of `handle_completion`), which sets `running := false`
without clearing `velocity`: the state reached from a fresh driver by
`animate_to` followed by `update` has `running = false` and
`velocity = 1/480000 ≠ 0`. -/
theorem C3_counterexample :
    (AnimationState.update ratAnimatable c3Start (1/240)).1.running = false ∧
    (AnimationState.update ratAnimatable c3Start (1/240)).1.velocity = 1/480000 ∧
    ¬ ((1 : ℚ)/480000 = 0) :=
  ⟨by with_unfolding_all rfl, by with_unfolding_all rfl, by norm_num⟩

/-- Claim C4, counterexample: for `dt = 1/120` (two sub-steps) the code's
`update` yields velocity `5/6` — the acceleration is computed once, before the
sub-step loop, from the pre-call state — while the claim's per-sub-step
re-evaluated iteration yields `5635/6912`.  The two disagree at this input. -/
theorem C4_counterexample :
    (AnimationState.update ratAnimatable c4Start (1/120)).1.velocity = 5/6 ∧
    (springStepRecomputed ratAnimatable { stiffness := 100, damping := 10, mass := 1 }
      (1 : ℚ) 2 ((0 : ℚ), (0 : ℚ))).1 = 5635/6912 ∧
    ¬ ((5 : ℚ)/6 = 5635/6912) :=
  ⟨by with_unfolding_all rfl, by with_unfolding_all rfl, by norm_num⟩

set_option maxRecDepth 40000 in
/-- Claim C6, counterexample: with 257 installed steps the comparison against
`total_steps as u8 - 1 = 0` makes the Driver treat step 0 as the last step.
After two `update (1/30)` calls the sequence has completed: it is cleared, its
`on_complete` fired, the base machine is stopped, and the base target is still
`0` (step 0's target) — the appended steps `1..256` (in particular the final
target `256`) are never visited, contradicting in-order visitation with no
skips. -/
theorem C6_counterexample :
    (MotionState.update ratAnimatable
      (MotionState.update ratAnimatable c6Start (1/30)).1 (1/30)).1.sequence.isSome = false ∧
    (MotionState.update ratAnimatable
      (MotionState.update ratAnimatable c6Start (1/30)).1 (1/30)).1.seqFired = 1 ∧
    (MotionState.update ratAnimatable
      (MotionState.update ratAnimatable c6Start (1/30)).1 (1/30)).1.base.running = false ∧
    (MotionState.update ratAnimatable
      (MotionState.update ratAnimatable c6Start (1/30)).1 (1/30)).1.base.target = 0 ∧
    (seq257.steps.getLast?.map (fun st => st.target)) = Option.some 256 ∧
    ¬ ((0 : ℚ) = 256) :=
  ⟨by with_unfolding_all rfl, by with_unfolding_all rfl, by with_unfolding_all rfl,
   by with_unfolding_all rfl, by with_unfolding_all rfl, by norm_num⟩

/-- Claim C8, counterexample: `handle_completion` invokes `on_complete`
through a shared reference and never takes it, so reusing the same config (and
thus the same callback value) across two animations fires the callback twice:
the ghost invocation counter reaches `2`, refuting at-most-once invocation
over the callback's lifetime. -/
theorem C8_counterexample :
    c8Run.fired = 2 ∧ c8Run.running = false ∧ ¬ (2 ≤ 1) :=
  ⟨by with_unfolding_all rfl, by with_unfolding_all rfl, by norm_num⟩

/-- Helper for C8: `handle_completion` fires the callback exactly when it
reports "do not continue", and then exactly once. -/
theorem handle_completion_fired (ops : Animatable T) (s : AnimationState T) :
    (AnimationState.handle_completion ops s).1.fired =
      s.fired + (if (AnimationState.handle_completion ops s).2 then 0
                 else if s.config.on_complete then 1 else 0) := by
  rcases hl : s.config.loop_mode.getD LoopMode.none with _ | _ | count <;>
    simp [AnimationState.handle_completion, hl, AnimationState.fireOnComplete,
      AnimationState.stop]
  by_cases h : count ≤ s.current_loop + 1 <;> simp [h]

/-- Claim C8, amended: within one animation run the callback fires at most
once per `update` tick, exactly on the tick whose `update` returns `false`
from a running state; the callback is not consumed, so a reused or cloned
config fires again on a later run's completion. -/
theorem C8_amended (ops : Animatable T) (s : AnimationState T) (dt : ℚ)
    (hr : s.running = true) :
    (AnimationState.update ops s dt).1.fired =
      s.fired + (if (AnimationState.update ops s dt).2 then 0
                 else if s.config.on_complete then 1 else 0) := by
  unfold AnimationState.update
  split
  · simp_all
  · split <;> dsimp only <;> split
    · exact handle_completion_fired ops _
    · simp
    · exact handle_completion_fired ops _
    · simp

/-- Witness for C8: the amended claim evaluated on a concrete completing
tween run. -/
theorem C8_witness :
    (AnimationState.update ratAnimatable
      (AnimationState.animate_to ratAnimatable (AnimationState.new ratAnimatable 0)
        1 c8Config) (1/30)).1.fired =
      (AnimationState.animate_to ratAnimatable (AnimationState.new ratAnimatable 0)
        1 c8Config).fired +
      (if (AnimationState.update ratAnimatable
            (AnimationState.animate_to ratAnimatable (AnimationState.new ratAnimatable 0)
              1 c8Config) (1/30)).2 then 0
       else if (AnimationState.animate_to ratAnimatable (AnimationState.new ratAnimatable 0)
            1 c8Config).config.on_complete then 1 else 0) :=
  C8_amended ratAnimatable _ (1/30) rfl


/-- Helper for C5: explicit description of the state after `m < n` completions
under `Times(n)`: each completion increments `current_loop`, restarts from
`initial` and clears velocity, firing nothing. -/
theorem times_iter_desc (ops : Animatable T) (s0 : AnimationState T) (n : Nat)
    (hl : s0.config.loop_mode = Option.some (LoopMode.times n))
    (hcl : s0.current_loop = 0) :
    ∀ m, m < n →
      (completionIter ops s0 m).config = s0.config ∧
      (completionIter ops s0 m).initial = s0.initial ∧
      (completionIter ops s0 m).current_loop = m ∧
      (completionIter ops s0 m).fired = s0.fired ∧
      (completionIter ops s0 m).restarts = s0.restarts + m ∧
      (completionIter ops s0 m).running = s0.running ∧
      (completionIter ops s0 m).current = (if m = 0 then s0.current else s0.initial) ∧
      (completionIter ops s0 m).velocity = (if m = 0 then s0.velocity else ops.zero) := by
  intro m
  induction m with
  | zero =>
      intro _
      refine ⟨rfl, rfl, ?_, rfl, ?_, rfl, ?_, ?_⟩ <;> simp [completionIter, hcl]
  | succ m ih =>
      intro hm
      have hm' : m < n := Nat.lt_of_succ_lt hm
      obtain ⟨hc, hi, hclm, hf, hre, hru, hcur, hv⟩ := ih hm'
      have hstep : completionIter ops s0 (m + 1) =
          (AnimationState.handle_completion ops (completionIter ops s0 m)).1 := by
        simp [completionIter, Function.iterate_succ_apply']
      rw [hstep]
      unfold AnimationState.handle_completion
      rw [hc, hl]
      simp only [Option.getD_some]
      have hle : ¬ (n ≤ (completionIter ops s0 m).current_loop + 1) := by
        rw [hclm]; omega
      simp only [hle, if_false]
      simp [hc, hi, hclm, hf, hre, hru, Nat.add_assoc]

/-- Claim C5: under `loop_mode = Times(n)` with `n ≥ 1`, starting a fresh run
(`current_loop = 0`, nothing fired yet), every completion increments
`current_loop`; during the first `n − 1` completions the motion restarts from
`initial` (restart count equals the completion count), the callback never
fires, and `handle_completion` reports "continue" exactly while more loops
remain; the `n`-th completion stops the machine and fires `on_complete`
exactly once. -/
theorem C5_times_loop (ops : Animatable T) (s0 : AnimationState T) (n : Nat)
    (hn : 1 ≤ n)
    (hl : s0.config.loop_mode = Option.some (LoopMode.times n))
    (hcl : s0.current_loop = 0) (hf : s0.fired = 0) (hre : s0.restarts = 0)
    (hoc : s0.config.on_complete = true) (hr : s0.running = true) :
    (∀ m, m < n →
      (completionIter ops s0 m).fired = 0 ∧
      (completionIter ops s0 m).restarts = m ∧
      (completionIter ops s0 m).current_loop = m ∧
      (completionIter ops s0 m).running = true ∧
      (1 ≤ m → (completionIter ops s0 m).current = s0.initial) ∧
      (AnimationState.handle_completion ops (completionIter ops s0 m)).2
        = decide (m + 1 < n)) ∧
    (completionIter ops s0 n).fired = 1 ∧
    (completionIter ops s0 n).restarts = n - 1 ∧
    (completionIter ops s0 n).running = false ∧
    (completionIter ops s0 n).velocity = ops.zero := by
  have desc := times_iter_desc ops s0 n hl hcl
  constructor
  · intro m hm
    obtain ⟨hc, hi, hclm, hfm, hrem, hrum, hcur, hv⟩ := desc m hm
    refine ⟨by rw [hfm, hf], by rw [hrem, hre, Nat.zero_add], hclm, by rw [hrum, hr],
      ?_, ?_⟩
    · intro h1
      rw [hcur, if_neg (by omega)]
    · unfold AnimationState.handle_completion
      rw [hc, hl]
      simp only [Option.getD_some]
      simp only [hclm]
      by_cases hfin : n ≤ m + 1
      · simp [hfin, show ¬ (m + 1 < n) by omega]
      · simp [hfin, show m + 1 < n by omega]
  · have hstep : completionIter ops s0 n =
        (AnimationState.handle_completion ops (completionIter ops s0 (n - 1))).1 := by
      have : n = (n - 1) + 1 := by omega
      rw [this]
      simp [completionIter, Function.iterate_succ_apply']
    obtain ⟨hc, hi, hclm, hfm, hrem, hrum, hcur, hv⟩ := desc (n - 1) (by omega)
    rw [hstep]
    unfold AnimationState.handle_completion
    rw [hc, hl]
    simp only [Option.getD_some]
    simp only [hclm]
    have hfin : n ≤ (n - 1) + 1 := by omega
    rw [if_pos hfin]
    simp [AnimationState.fireOnComplete, AnimationState.stop, hc, hoc, hfm, hf, hrem, hre]

/-- Witness for C5: the claim evaluated with `Times(3)` — one firing, two
restarts, stopped after the third completion. -/
theorem C5_witness :
    (completionIter ratAnimatable
      (AnimationState.animate_to ratAnimatable (AnimationState.new ratAnimatable 0) 5
        { mode := AnimationMode.tween { duration := 1, easing := id }
          loop_mode := Option.some (LoopMode.times 3)
          delay := 0
          on_complete := true }) 3).fired = 1 ∧
    (completionIter ratAnimatable
      (AnimationState.animate_to ratAnimatable (AnimationState.new ratAnimatable 0) 5
        { mode := AnimationMode.tween { duration := 1, easing := id }
          loop_mode := Option.some (LoopMode.times 3)
          delay := 0
          on_complete := true }) 3).restarts = 2 ∧
    (completionIter ratAnimatable
      (AnimationState.animate_to ratAnimatable (AnimationState.new ratAnimatable 0) 5
        { mode := AnimationMode.tween { duration := 1, easing := id }
          loop_mode := Option.some (LoopMode.times 3)
          delay := 0
          on_complete := true }) 3).running = false := by
  have h := C5_times_loop ratAnimatable
    (AnimationState.animate_to ratAnimatable (AnimationState.new ratAnimatable 0) 5
      { mode := AnimationMode.tween { duration := 1, easing := id }
        loop_mode := Option.some (LoopMode.times 3)
        delay := 0
        on_complete := true }) 3 (by norm_num) rfl rfl rfl rfl rfl rfl
  exact ⟨h.2.1, h.2.2.1, h.2.2.2.1⟩

/-- Helper for C4: on a duration of exactly `k` sub-steps the spring loop is
the `k`-fold constant-acceleration Euler iteration. -/
theorem springLoopAux_natDiv (ops : Animatable T) (a : T) :
    ∀ (k fuel : Nat), k ≤ fuel → ∀ (v c : T),
      springLoopAux ops a fuel ((k : ℚ)/240) v c = eulerConstAccel ops a k (v, c) := by
  intro k
  induction k with
  | zero =>
      intro fuel _ v c
      cases fuel <;> norm_num [springLoopAux, eulerConstAccel]
  | succ k ih =>
      intro fuel hk v c
      rcases fuel with _ | f
      · omega
      · have hpos : (0 : ℚ) < ((k : ℚ) + 1)/240 := by positivity
        have hmin : min (((k : ℚ) + 1)/240) (1/240) = 1/240 := by
          rw [min_eq_right]
          apply div_le_div_of_nonneg_right ?_ (by norm_num)
          · linarith [Nat.cast_nonneg (α := ℚ) k]
        have hsub : ((k : ℚ) + 1)/240 - 1/240 = (k : ℚ)/240 := by ring
        simp only [springLoopAux, Nat.cast_succ, hpos, if_pos, hmin, hsub]
        rw [ih f (by omega)]
        rfl

/-- Claim C4, amended: a spring-mode `update(dt)` whose clamped `dt` spans `k`
sub-steps iterates semi-implicit Euler `k` times with the acceleration
`a = (stiffness·(target − current) − damping·velocity)/mass` computed once
from the pre-call state and held constant across all sub-steps (not
re-evaluated per sub-step); the result is snapped to the target exactly when
the convergence test passes. -/
theorem C4_amended (ops : Animatable T) (s : AnimationState T) (sp : Spring)
    (dt : ℚ) (k : Nat)
    (hr : s.running = true) (hm : s.config.mode = AnimationMode.spring sp)
    (hl : s.config.loop_mode = Option.none)
    (hdt : min dt (1/30) = (k : ℚ)/240) :
    (AnimationState.update ops s dt).1.velocity =
      (springCodeStep ops sp s.target s.velocity s.current k).1 ∧
    (AnimationState.update ops s dt).1.current =
      (if ops.magnitude (springCodeStep ops sp s.target s.velocity s.current k).1
            < ops.epsilon * (1/2) ∧
          ops.magnitude (ops.sub s.target
            (springCodeStep ops sp s.target s.velocity s.current k).2) < ops.epsilon
       then s.target
       else (springCodeStep ops sp s.target s.velocity s.current k).2) := by
  have hloop : springLoop ops
      (ops.scale (ops.add (ops.scale (ops.sub s.target s.current) sp.stiffness)
        (ops.scale s.velocity (-sp.damping))) (1 / sp.mass))
      (min dt (1/30)) s.velocity s.current
      = springCodeStep ops sp s.target s.velocity s.current k := by
    rw [hdt]
    unfold springLoop springCodeStep
    have hceil : (⌈(240 : ℚ) * ((k : ℚ)/240)⌉).toNat = k := by
      have h240 : (240 : ℚ) * ((k : ℚ)/240) = (k : ℚ) := by ring
      rw [h240, Int.ceil_natCast, Int.toNat_natCast]
    rw [hceil]
    exact springLoopAux_natDiv ops _ k k le_rfl s.velocity s.current
  unfold AnimationState.update
  rw [if_neg (by simp [hr])]
  simp only [hm]
  rw [hloop]
  split
  · unfold AnimationState.handle_completion
    simp only [hl, Option.getD_none]
    exact ⟨rfl, rfl⟩
  · exact ⟨rfl, rfl⟩

/-- Witness for C4: the amended claim evaluated on the two-sub-step spring
run `c4Start` with `dt = 1/120`, `k = 2`. -/
theorem C4_witness :
    (AnimationState.update ratAnimatable c4Start (1/120)).1.velocity =
      (springCodeStep ratAnimatable { stiffness := 100, damping := 10, mass := 1 }
        c4Start.target c4Start.velocity c4Start.current 2).1 :=
  (C4_amended ratAnimatable c4Start { stiffness := 100, damping := 10, mass := 1 }
    (1/120) 2 rfl rfl rfl (by norm_num [min_def])).1


/-- Claim C6, amended (the step index is 8-bit, so for sequences of at most
255 steps): each `update` advances the installed sequence by at most one step;
while the base machine is running the sequence is untouched; when the base is
idle and more steps remain, exactly the successor step is started; when the
base is idle at the last step, the sequence completes and is cleared. -/
theorem C6_amended (ops : Animatable T) (m : MotionState T) (ss : SequenceState T) (dt : ℚ)
    (hs : m.sequence = Option.some ss)
    (hL : ss.sequence.steps.length ≤ 255)
    (hk : ss.sequence.current_step < ss.sequence.steps.length) :
    (m.base.running = true →
      (MotionState.update ops m dt).1.sequence = Option.some ss ∧
      (MotionState.update ops m dt).2 = true) ∧
    (m.base.running = false → ss.sequence.current_step + 1 < ss.sequence.steps.length →
      ∃ st : AnimationStep T,
        ss.sequence.steps.get? (ss.sequence.current_step + 1) = Option.some st ∧
        (MotionState.update ops m dt).1.sequence = Option.some
          { ss with sequence :=
            { ss.sequence with current_step := ss.sequence.current_step + 1 } } ∧
        (MotionState.update ops m dt).1.base =
          (AnimationState.update ops
            (AnimationState.animate_to ops m.base st.target st.config) dt).1 ∧
        (MotionState.update ops m dt).2 = true) ∧
    (m.base.running = false → ss.sequence.current_step + 1 = ss.sequence.steps.length →
      (MotionState.update ops m dt).1.sequence = Option.none ∧
      (MotionState.update ops m dt).1.base.running = false ∧
      (MotionState.update ops m dt).2 = false) := by
  have hL1 : 1 ≤ ss.sequence.steps.length := by omega
  have hlast : (ss.sequence.steps.length % 256 + 255) % 256
      = ss.sequence.steps.length - 1 := by omega
  refine ⟨?_, ?_, ?_⟩
  · intro hrun
    simp [MotionState.update, hs, hrun]
  · intro hrun h2
    have hcs : ss.sequence.current_step <
        (ss.sequence.steps.length + 255) % 256 := by omega
    have hget : ss.sequence.steps.get? (ss.sequence.current_step + 1) =
        Option.some (ss.sequence.steps.get ⟨ss.sequence.current_step + 1, h2⟩) :=
      List.get?_eq_get h2
    have hget2 : ss.sequence.steps[ss.sequence.current_step + 1]? =
        Option.some (ss.sequence.steps.get ⟨ss.sequence.current_step + 1, h2⟩) := by
      rw [← List.get?_eq_getElem?]
      exact hget
    refine ⟨ss.sequence.steps.get ⟨ss.sequence.current_step + 1, h2⟩, hget, ?_, ?_, ?_⟩ <;>
      simp [MotionState.update, hs, hrun, hcs, hget2]
  · intro hrun h2
    have hcs : ¬ (ss.sequence.current_step <
        (ss.sequence.steps.length + 255) % 256) := by omega
    have heq : ss.sequence.current_step
        = (ss.sequence.steps.length + 255) % 256 := by omega
    refine ⟨?_, ?_, ?_⟩ <;>
      simp [MotionState.update, hs, hrun, hcs, heq, AnimationState.update,
        AnimationState.stop]

/-- Witness for C6: the amended claim's advancement case evaluated on an idle
driver holding a two-step sequence at step 0. -/
theorem C6_witness :
    (MotionState.update ratAnimatable c6TwoStepIdle 1).2 = true := by
  obtain ⟨st, hst, hseq, hbase, hret⟩ :=
    (C6_amended ratAnimatable c6TwoStepIdle
      { sequence :=
          { steps := [{ target := 10, config := tweenLinear 1 },
                      { target := 20, config := tweenLinear 1 }]
            current_step := 0
            on_complete := false }
        currentValue := 0 } 1 rfl (by norm_num) (by norm_num)).2.1 rfl (by norm_num)
  exact hret

/-- Helper for C3: `handle_completion` keeps the velocity invariant, given
that the incoming velocity is zero or below the spring residual bound. -/
theorem handle_completion_velInv (ops : Animatable T) (s : AnimationState T)
    (hmag : s.velocity = ops.zero ∨ ops.magnitude s.velocity < ops.epsilon * (1/2)) :
    VelInv ops (AnimationState.handle_completion ops s).1 := by
  rcases hl : s.config.loop_mode.getD LoopMode.none with _ | _ | count <;>
    simp only [AnimationState.handle_completion, hl, AnimationState.fireOnComplete,
      AnimationState.stop]
  · exact ⟨fun _ => hmag, fun tw hm hr => by simp_all⟩
  · exact ⟨fun _ => Or.inl rfl, fun tw hm hr => rfl⟩
  · by_cases h : count ≤ s.current_loop + 1 <;> simp only [h, if_true, if_false]
    · exact ⟨fun _ => Or.inl rfl, fun tw hm hr => by simp_all⟩
    · exact ⟨fun _ => Or.inl rfl, fun tw hm hr => rfl⟩

/-- Helper for C3: `update` preserves the velocity invariant. -/
theorem update_velInv (ops : Animatable T) (s : AnimationState T) (dt : ℚ)
    (h : VelInv ops s) : VelInv ops (AnimationState.update ops s dt).1 := by
  unfold AnimationState.update
  split
  · exact h
  · rename_i hrun
    have hrun' : s.running = true := by
      revert hrun; cases s.running <;> simp
    split
    · rename_i sp hm
      dsimp only
      split
      · rename_i hcond
        exact handle_completion_velInv ops _ (Or.inr hcond.1)
      · refine ⟨fun hf => by simp_all, fun tw hmt _ => ?_⟩
        rw [hm] at hmt
        cases hmt
    · rename_i tw hm
      have hv : s.velocity = ops.zero := h.2 tw hm hrun'
      dsimp only
      split
      · exact handle_completion_velInv ops _ (Or.inl hv)
      · exact ⟨fun hf => by simp_all, fun _ _ _ => hv⟩

/-- Helper for C3: every reachable state satisfies the velocity invariant. -/
theorem reachable_velInv (ops : Animatable T) (s : AnimationState T)
    (h : Reachable ops s) : VelInv ops s := by
  induction h with
  | new x => exact ⟨fun _ => Or.inl rfl, fun _ _ _ => rfl⟩
  | animTo target config _ _ => exact ⟨fun _ => Or.inl rfl, fun _ _ _ => rfl⟩
  | upd dt _ ih => exact update_velInv ops _ dt ih
  | stopOp _ _ => exact ⟨fun _ => Or.inl rfl, fun _ _ _ => rfl⟩
  | resetOp _ _ => exact ⟨fun _ => Or.inl rfl, fun _ _ _ => rfl⟩

/-- Claim C3, amended: on every state reachable by `animate_to`, `update`,
`stop`, `reset` from a fresh state, `running = false` implies the velocity is
either exactly zero or a sub-threshold spring residual of magnitude below
`epsilon/2` (a spring completion under `LoopMode::None` stops without
clearing the residual velocity; `stop`, `reset` and loop restarts do clear
it). -/
theorem C3_amended (ops : Animatable T) (s : AnimationState T)
    (h : Reachable ops s) (hrun : s.running = false) :
    s.velocity = ops.zero ∨ ops.magnitude s.velocity < ops.epsilon * (1/2) :=
  (reachable_velInv ops s h).1 hrun

/-- Witness for C3: the amended claim evaluated on a fresh state. -/
theorem C3_witness :
    (AnimationState.new ratAnimatable (0 : ℚ)).velocity = ratAnimatable.zero ∨
    ratAnimatable.magnitude (AnimationState.new ratAnimatable (0 : ℚ)).velocity
      < ratAnimatable.epsilon * (1/2) :=
  C3_amended ratAnimatable _ (Reachable.new 0) rfl

end DioxusMotion
